import Mathlib

/-
Shallow embedding of the distributed batch analysis pipeline of the
flawlesst-api repository.

Sources embedded:
  - src/src/lambdas/analyze-file/index.ts      (Unit Analyzer lambda)
  - src/src/lambdas/aggregate-results/index.ts (Reducer lambda)
  - src/unnamed/part_015                       (start-analysis lambda)
  - the start-analysis-after-explode lambda (source text embedded in
    src/src/lambdas/health/README.md after the separator)
  - src/unnamed/part_004 / part_005 (CDK stack: the AnalyzeFilesMap state
    with maxConcurrency 50 chaining into the AggregateResultsTask)

Modelling conventions:
  - JavaScript numbers are modelled as exact rationals; automation scores
    come out of JSON.parse, so NaN and infinities cannot occur.
  - Thrown exceptions become Except.error values; the try/catch structure
    of each handler is translated branch by branch.
  - AWS S3 is the durable keyed store: PutObject is a full overwrite of a
    key, modelled on an association list; GetObject is lookup.
  - External collaborators (S3 reads, Bedrock calls, Supabase inserts) are
    fields of an environment record giving their outcome for this call.
-/

namespace Flawlesst

/-- JavaScript Math.round: nearest integer, halves rounding toward
positive infinity. -/
def jsRound (q : ℚ) : ℤ := ⌊q + 1/2⌋

/-- JavaScript Array.join with separator newline, as used by
aiSummary.summary.join in the Reducer. -/
def joinLines : List String → String
  | [] => ""
  | [a] => a
  | a :: b :: rest => a ++ "\n" ++ joinLines (b :: rest)

/-- JavaScript String.endsWith, modelled structurally on the character
lists of the two strings. -/
def strEndsWith (s suffix : String) : Bool :=
  List.isSuffixOf suffix.data s.data

/-- The closed test-type tag set of a Verdict. -/
inductive TestType where
  | unit
  | integration
  | e2e
  | none
deriving DecidableEq, Repr

/-- AnalysisResult / FileAnalysis: the Verdict produced for one unit
(interface AnalysisResult in analyze-file/index.ts, FileAnalysis in
aggregate-results/index.ts). -/
structure FileAnalysis where
  file_name : String
  automation_score : ℚ
  has_tests : Bool
  test_type : TestType
  observations : List String
  improvement_suggestions : List String
deriving DecidableEq, Repr

/-- The untrusted object obtained by JSON.parse of the classifier content
in callBedrock, before the handler validates it.  The automation_score
may be absent or not a number, which the typeof check rejects. -/
structure RawVerdict where
  file_name : String
  automation_score : Option ℚ
  has_tests : Bool
  test_type : TestType
  observations : List String
  improvement_suggestions : List String
deriving DecidableEq, Repr

namespace AnalyzeFile

/-- interface AnalysisInput of analyze-file/index.ts. -/
structure AnalysisInput where
  fileKey : String
  fileName : String
  userId : String
  projectId : String
  jobExecutionId : String
deriving DecidableEq, Repr

/-- The results bucket, as an association list keyed by object key.
PutObject on S3 replaces the object stored at a key. -/
abbrev S3Store := List (String × FileAnalysis)

/-- S3 PutObject: full overwrite of the object at the key. -/
def s3Put (store : S3Store) (key : String) (v : FileAnalysis) : S3Store :=
  (key, v) :: store.filter (fun p => !(p.1 == key))

/-- S3 GetObject on the results bucket. -/
def s3Get (store : S3Store) (key : String) : Option FileAnalysis :=
  (store.find? (fun p => p.1 == key)).map (fun p => p.2)

/-- Outcome environment for one Unit Analyzer invocation: the S3 content
fetch (error message or file text), the callBedrock outcome as a function
of the prompt (error: the Bedrock call threw or its content was not valid
JSON), and whether PutObject to the results bucket succeeds (some e means
every put in this invocation throws e). -/
structure AnalyzeEnv where
  fetchResult : Except String String
  classify : String → Except String RawVerdict
  putResult : Option String

/-- maxContentLength of analyze-file/index.ts. -/
def maxContentLength : ℕ := 50000

/-- Content size limiting of analyze-file/index.ts: contents longer than
maxContentLength are cut and a truncation marker is appended. -/
def truncateContent (codeContent : String) : String :=
  if codeContent.length > maxContentLength then
    codeContent.take maxContentLength ++ "\n... [Content truncated for analysis]"
  else
    codeContent

/-- generateUserPrompt of analyze-file/index.ts (the template literal,
with the file name and possibly truncated content spliced in). -/
def generateUserPrompt (fileName codeContent : String) : String :=
  "Analyze this code file:\n" ++ codeContent ++
  "\n\nOutput structure:\n\x7b\n  \"file_name\": \"" ++ fileName ++
  "\",\n  \"automation_score\": <integer 0-10>,\n  \"has_tests\": <boolean>,\n  \"test_type\": <\"unit\" | \"integration\" | \"e2e\" | \"none\">,\n  \"observations\": [\"<string>\", \"<string>\"],\n  \"improvement_suggestions\": [\"<string>\", \"<string>\"]\n\x7d\n\nScoring Criteria:\n- 10: Perfect coverage, mockable interfaces, CI-ready.\n- 5: Some logic, but hard to test (tight coupling), no tests present.\n- 0: Untestable spaghetti code, hardcoded secrets/paths."

/-- The canonical failure verdict built in the catch block of the
analyze-file handler; msg is the message of the caught error. -/
def failedResult (fileName msg : String) : FileAnalysis :=
  { file_name := fileName
    automation_score := 0
    has_tests := false
    test_type := TestType.none
    observations := ["Analysis failed: " ++ msg]
    improvement_suggestions := ["Fix analysis errors and retry"] }

/-- The derived result key of the analyze-file handler. -/
def resultKey (event : AnalysisInput) : String :=
  event.userId ++ "/" ++ event.projectId ++ "/analysis-results/" ++
    event.jobExecutionId ++ "/" ++ event.fileName ++ ".json"

/-- The validation of the parsed classifier response: typeof must be a
number and the score must lie in the range 0..10, otherwise the handler
throws Invalid automation_score. -/
def validateScore (raw : RawVerdict) : Option FileAnalysis :=
  match raw.automation_score with
  | Option.none => Option.none
  | Option.some s =>
    if s < 0 ∨ s > 10 then
      Option.none
    else
      Option.some
        { file_name := raw.file_name
          automation_score := s
          has_tests := raw.has_tests
          test_type := raw.test_type
          observations := raw.observations
          improvement_suggestions := raw.improvement_suggestions }

/-- The part of the analyze-file handler after the classifier call:
validation, the result write, and the catch branch.  A validation
failure and a write failure both land in the catch block; the catch
block writes the failure verdict best effort (the save error is
swallowed) and returns the failure verdict. -/
def analyzeAfterClassify (env : AnalyzeEnv) (event : AnalysisInput)
    (store : S3Store) (outcome : Except String RawVerdict) :
    FileAnalysis × S3Store :=
  let key := resultKey event
  match outcome with
  | Except.error msg =>
    let fr := failedResult event.fileName msg
    match env.putResult with
    | Option.none => (fr, s3Put store key fr)
    | Option.some _ => (fr, store)
  | Except.ok raw =>
    match validateScore raw with
    | Option.none =>
      let fr := failedResult event.fileName "Invalid automation_score in AI response"
      match env.putResult with
      | Option.none => (fr, s3Put store key fr)
      | Option.some _ => (fr, store)
    | Option.some res =>
      match env.putResult with
      | Option.none => (res, s3Put store key res)
      | Option.some e =>
        let fr := failedResult event.fileName e
        (fr, store)

/-- The analyze-file handler: fetch the unit content, truncate it, call
the classifier on the templated prompt, validate, and write the verdict
(success or failure) to the results bucket; every error is absorbed into
the canonical failure verdict. -/
def handler (env : AnalyzeEnv) (event : AnalysisInput) (store : S3Store) :
    FileAnalysis × S3Store :=
  match env.fetchResult with
  | Except.error msg =>
    let fr := failedResult event.fileName msg
    match env.putResult with
    | Option.none => (fr, s3Put store (resultKey event) fr)
    | Option.some _ => (fr, store)
  | Except.ok codeContent =>
    analyzeAfterClassify env event store
      (env.classify (generateUserPrompt event.fileName (truncateContent codeContent)))

end AnalyzeFile

namespace AggregateResults

/-- interface AggregatorInput of aggregate-results/index.ts. -/
structure AggregatorInput where
  userId : String
  projectId : String
  jobExecutionId : String
  filePaths : List String
deriving DecidableEq, Repr

/-- The project_reports row built by the Reducer (the reportData and
failureReport objects of aggregate-results/index.ts; the id and
created_at columns are generated by the database and carry no pipeline
content). -/
structure ReportData where
  project_id : String
  overall_score : ℤ
  summary : String
  total_files : ℕ
  files_with_tests : ℕ
  average_score : ℚ
deriving DecidableEq, Repr

/-- The summary prompt of generateSummaryPrompt is a template string; it
is modelled by the values it splices in: the count of scores, the mean
score formatted by toFixed with one decimal, and the observation lines.
The regex extraction in generateFallbackSummary recovers exactly the
first two of these values. -/
structure SummaryPromptData where
  totalFiles : ℕ
  avgScore1 : ℚ
  observations : List String
deriving DecidableEq, Repr

/-- The value of avgScore.toFixed with one decimal read back as a
number: the mean rounded to one decimal place. -/
def toFixed1 (q : ℚ) : ℚ := (jsRound (q * 10) : ℚ) / 10

/-- String rendering of a nonnegative one-decimal rational, as toFixed
with one decimal prints it. -/
def fmtFixed1 (q : ℚ) : String :=
  let n := jsRound (q * 10)
  toString (n / 10) ++ "." ++ toString (n % 10)

/-- generateSummaryPrompt of aggregate-results/index.ts, modelled by the
values the template splices in. -/
def generateSummaryPrompt (observations : List String) (scores : List ℚ) :
    SummaryPromptData :=
  let avgScore := scores.sum / (scores.length : ℚ)
  { totalFiles := scores.length
    avgScore1 := toFixed1 avgScore
    observations := observations }

/-- generateFallbackSummary of aggregate-results/index.ts: a summary
derived only from the average score and total file count recovered from
the prompt (the regex match always succeeds on a generated prompt). -/
def generateFallbackSummary (p : SummaryPromptData) : List String :=
  let avgScore := p.avgScore1
  let totalFiles := p.totalFiles
  let line1 :=
    if avgScore ≥ 8 then
      "Strong test automation maturity across the codebase"
    else if avgScore ≥ 6 then
      "Moderate test automation coverage with room for improvement"
    else
      "Test automation needs significant enhancement"
  let line2 :=
    "Analyzed " ++ toString totalFiles ++ " files with average score of " ++
      fmtFixed1 avgScore ++ "/10"
  if avgScore < 7 then
    [line1, line2,
     "Focus on increasing test coverage and automation",
     "Consider implementing test-driven development practices"]
  else
    [line1, line2,
     "Maintain current testing standards and optimize existing tests"]

/-- What the summarizer content decodes to when the Bedrock call itself
succeeds: either the content text is not valid JSON, or it parses to an
object with a summary array (the missing-text default string parses to
the summary array with the single line Analysis completed). -/
inductive SummaryContent where
  | notJson (raw : String)
  | json (summary : List String)
deriving DecidableEq, Repr

/-- Outcome of the summarizer call: err covers both an unreachable
Bedrock endpoint and a response envelope that fails JSON.parse (both
throw inside the outer try of callBedrockForSummary); ok carries the
decoded content. -/
inductive BedrockSummaryOutcome where
  | err (msg : String)
  | ok (content : SummaryContent)
deriving Repr

/-- callBedrockForSummary of aggregate-results/index.ts: on any thrown
error the deterministic fallback is generated from the prompt; when the
call succeeds but the content is not valid JSON, a fixed single line is
returned; otherwise the parsed summary array is returned. -/
def callBedrockForSummary (outcome : BedrockSummaryOutcome)
    (p : SummaryPromptData) : List String :=
  match outcome with
  | BedrockSummaryOutcome.err _ => generateFallbackSummary p
  | BedrockSummaryOutcome.ok (SummaryContent.notJson _) =>
    ["Analysis completed with mixed results"]
  | BedrockSummaryOutcome.ok (SummaryContent.json s) => s

/-- Outcome environment for one Reducer invocation: the object keys
listed under the result location of the job, the combined GetObject and
JSON.parse outcome per key (Option.none covers both an unreadable body
and unparseable JSON, which the per-key catch skips), the summarizer
outcome, and the success of each Supabase and S3 write. -/
structure ReduceEnv where
  keys : List String
  read : String → Option FileAnalysis
  summaryOutcome : BedrockSummaryOutcome
  projectExists : Bool
  createProjectOk : Bool
  reportInsertOk : Bool
  backupPutOk : Bool
  failureInsertOk : Bool

/-- The failureReport object built in the catch block of the
aggregate-results handler. -/
def failureReport (projectId msg : String) : ReportData :=
  { project_id := projectId
    overall_score := 0
    summary := "Analysis failed: " ++ msg
    total_files := 0
    files_with_tests := 0
    average_score := 0 }

/-- The catch block of the aggregate-results handler: attempt to insert
an explicit failure report; return it if the insert produced a row,
otherwise rethrow the original error.  The second component lists the
project_reports rows inserted during the whole invocation. -/
def catchHandler (env : ReduceEnv) (event : AggregatorInput)
    (inserted : List ReportData) (msg : String) :
    Except String ReportData × List ReportData :=
  let fr := failureReport event.projectId msg
  if env.failureInsertOk then
    (Except.ok fr, inserted ++ [fr])
  else
    (Except.error msg, inserted)

/-- The aggregate metric computation and summary generation of the
aggregate-results handler, for the successfully parsed analyses. -/
def computeReport (event : AggregatorInput) (analyses : List FileAnalysis)
    (summaryOutcome : BedrockSummaryOutcome) : ReportData :=
  let allScores := analyses.map (fun a => a.automation_score)
  let allObservations := analyses.flatMap (fun a => a.observations)
  let averageScore := allScores.sum / (allScores.length : ℚ)
  { project_id := event.projectId
    overall_score := jsRound (averageScore * 10)
    summary := joinLines
      (callBedrockForSummary summaryOutcome
        (generateSummaryPrompt allObservations allScores))
    total_files := analyses.length
    files_with_tests := (analyses.filter (fun a => a.has_tests)).length
    average_score := (jsRound (averageScore * 10) : ℚ) / 10 }

/-- The aggregate-results handler: list the result keys of the job, read
and parse each (skipping per-key failures), compute the aggregate
metrics and the summary, ensure the project row, insert the report row,
insert the detail rows in batches of 50 (their insert errors are only
logged), and write the S3 backup; any thrown error reaches the catch
block, which attempts the explicit failure report.  The second component
lists the project_reports rows inserted during the invocation. -/
def handler (env : ReduceEnv) (event : AggregatorInput) :
    Except String ReportData × List ReportData :=
  let resultFiles := env.keys.filter (fun k => strEndsWith k ".json")
  if resultFiles.isEmpty then
    catchHandler env event [] "No analysis results found to aggregate"
  else
    let analyses := resultFiles.filterMap env.read
    if analyses.isEmpty then
      catchHandler env event [] "Failed to read any valid analysis results"
    else if !env.projectExists && !env.createProjectOk then
      catchHandler env event [] "Failed to create project: insert failed"
    else
      let reportData := computeReport event analyses env.summaryOutcome
      if !env.reportInsertOk then
        catchHandler env event [] "Failed to create project report: insert failed"
      else if !env.backupPutOk then
        catchHandler env event [reportData] "Failed to write backup report"
      else
        (Except.ok reportData, [reportData])

end AggregateResults

namespace Pipeline

/-- Return value of the start-analysis lambda (src/unnamed/part_015). -/
structure StartAnalysisResult where
  status : String
  message : String
  fileCount : ℕ
deriving DecidableEq, Repr

/-- The start-analysis lambda (src/unnamed/part_015): list the exploded
objects of the project, drop folder placeholder keys, and refuse to
start the analysis state machine when none remain.  objectKeys stands
for the keys listed under the exploded-repo location of the project. -/
def startAnalysis (objectKeys : List String) (projectId : String) :
    Except String StartAnalysisResult :=
  let files := objectKeys.filter (fun k => !(strEndsWith k "/"))
  if files.isEmpty then
    Except.error ("No exploded files found for project " ++ projectId ++
      ". Please run clone-repo first.")
  else
    Except.ok
      { status := "STARTED"
        message := "Analysis started for " ++ toString files.length ++ " files"
        fileCount := files.length }

/-- Event of the start-analysis-after-explode lambda (source embedded in
src/src/lambdas/health/README.md): the auto-continue flag, the analysis
state machine reference, and the path list produced by the explode
step. -/
structure AfterExplodeInput where
  autoStartAnalysis : Bool
  analysisStateMachineArn : Option String
  filePaths : List String
deriving DecidableEq, Repr

/-- What the start-analysis-after-explode lambda did: skipped fanning
out, or started the analysis state machine on the given path list. -/
inductive AfterExplodeOutcome where
  | skipped (message : String)
  | started (filePaths : List String)
deriving DecidableEq, Repr

/-- The start-analysis-after-explode lambda: unless auto continuation is
disabled or the state machine reference is missing, it starts the
analysis state machine on the explode path list; the list is passed on
without any emptiness check. -/
def startAnalysisAfterExplode (event : AfterExplodeInput) :
    AfterExplodeOutcome :=
  if !event.autoStartAnalysis || event.analysisStateMachineArn.isNone then
    AfterExplodeOutcome.skipped "Analysis not started automatically"
  else
    AfterExplodeOutcome.started event.filePaths

/-- Collaborator outcomes for one run of the analysis state machine: the
per-unit Unit Analyzer environment and the Reducer collaborator
outcomes. -/
structure MachineEnv where
  perUnit : String → AnalyzeFile.AnalyzeEnv
  summaryOutcome : AggregateResults.BedrockSummaryOutcome
  projectExists : Bool
  createProjectOk : Bool
  reportInsertOk : Bool
  backupPutOk : Bool
  failureInsertOk : Bool

/-- The payload the AnalyzeFilesMap iterator passes to each AnalyzeFileTask
invocation (src/unnamed/part_004): the path as fileName together with the
job identifiers; no fileKey field is present in the payload. -/
def mkAnalyzeInput (userId projectId jobId path : String) :
    AnalyzeFile.AnalysisInput :=
  { fileKey := ""
    fileName := path
    userId := userId
    projectId := projectId
    jobExecutionId := jobId }

/-- The analysis state machine of the CDK stack (src/unnamed/part_004):
the AnalyzeFilesMap state runs one AnalyzeFileTask per path writing into
the results bucket, then the AggregateResultsTask reduces whatever was
written under the job.  The map iterations are independent single-key
writes, so the sequential fold reproduces the final store. -/
def runAnalysisStateMachine (menv : MachineEnv)
    (userId projectId jobId : String) (filePaths : List String) :
    Except String AggregateResults.ReportData ×
      List AggregateResults.ReportData :=
  let store := filePaths.foldl
    (fun st p =>
      (AnalyzeFile.handler (menv.perUnit p)
        (mkAnalyzeInput userId projectId jobId p) st).2)
    []
  let renv : AggregateResults.ReduceEnv :=
    { keys := store.map (fun p => p.1)
      read := fun k => AnalyzeFile.s3Get store k
      summaryOutcome := menv.summaryOutcome
      projectExists := menv.projectExists
      createProjectOk := menv.createProjectOk
      reportInsertOk := menv.reportInsertOk
      backupPutOk := menv.backupPutOk
      failureInsertOk := menv.failureInsertOk }
  AggregateResults.handler renv
    { userId := userId
      projectId := projectId
      jobExecutionId := jobId
      filePaths := filePaths }

/-- The auto-continue chain of the clone state machine: the explode step
hands its path list to start-analysis-after-explode, which may start the
analysis state machine.  The result is the list of project_reports rows
the run inserted. -/
def runPipelineAfterExplode (menv : MachineEnv)
    (userId projectId jobId : String) (event : AfterExplodeInput) :
    List AggregateResults.ReportData :=
  match startAnalysisAfterExplode event with
  | AfterExplodeOutcome.skipped _ => []
  | AfterExplodeOutcome.started paths =>
    (runAnalysisStateMachine menv userId projectId jobId paths).2

/-- maxConcurrency of the AnalyzeFilesMap state in the CDK stack
(src/unnamed/part_004 line 280 and part_005 line 174). -/
def maxConcurrency : ℕ := 50

/-- A state of the AnalyzeFilesMap execution over the surviving unit
paths: paths not yet dispatched, invocations in flight, and completed
invocations. -/
structure SchedState where
  pending : List String
  inFlight : List String
  completed : List String

/-- Modelled from the spec: the execution semantics of the workflow
engine running the AnalyzeFilesMap state is not part of this repository
(only its configuration is); per the spec, the scheduler dispatches one
invocation per path while at most the configured ceiling of invocations
is in flight, and completions may arrive in any order. -/
inductive SchedStep : SchedState → SchedState → Prop where
  | dispatch (p : String) (pending inFlight completed : List String) :
      inFlight.length < maxConcurrency →
      SchedStep ⟨p :: pending, inFlight, completed⟩
        ⟨pending, p :: inFlight, completed⟩
  | complete (p : String) (pending inFlight completed : List String) :
      p ∈ inFlight →
      SchedStep ⟨pending, inFlight, completed⟩
        ⟨pending, inFlight.erase p, p :: completed⟩

/-- The initial fan-out state: every surviving path pending. -/
def initState (paths : List String) : SchedState := ⟨paths, [], []⟩

/-- The states an AnalyzeFilesMap execution over the given paths can
reach. -/
def Reachable (paths : List String) (s : SchedState) : Prop :=
  Relation.ReflTransGen SchedStep (initState paths) s

end Pipeline

/-
Concrete sample data used by the witness and counterexample theorems.
-/

/-- Sample parsed verdict with score 10 and tests present. -/
def vaSample : FileAnalysis :=
  { file_name := "a", automation_score := 10, has_tests := true,
    test_type := TestType.unit, observations := ["obs a"],
    improvement_suggestions := [] }

/-- Sample parsed verdict with score 5 and no tests. -/
def vbSample : FileAnalysis :=
  { file_name := "b", automation_score := 5, has_tests := false,
    test_type := TestType.none, observations := ["obs b"],
    improvement_suggestions := [] }

/-- Sample parsed verdict with score 0 and no tests. -/
def vcSample : FileAnalysis :=
  { file_name := "c", automation_score := 0, has_tests := false,
    test_type := TestType.none, observations := ["obs c"],
    improvement_suggestions := [] }

/-- Sample aggregator event. -/
def eventSample : AggregateResults.AggregatorInput :=
  { userId := "u", projectId := "p", jobExecutionId := "j",
    filePaths := ["a", "b", "c"] }

/-- Reducer environment for the C1 witness: three parseable results with
scores 10, 5, 0 and has_tests true, false, false. -/
def envC1w : AggregateResults.ReduceEnv :=
  { keys := ["a.json", "b.json", "c.json"]
    read := fun k =>
      if k = "a.json" then some vaSample
      else if k = "b.json" then some vbSample
      else if k = "c.json" then some vcSample
      else Option.none
    summaryOutcome := AggregateResults.BedrockSummaryOutcome.err "endpoint unreachable"
    projectExists := true
    createProjectOk := true
    reportInsertOk := true
    backupPutOk := true
    failureInsertOk := true }

/-- Reducer environment for the C3 witness: two listed result keys of
which only one has a parseable body. -/
def envC3w : AggregateResults.ReduceEnv :=
  { keys := ["a.json", "bad.json"]
    read := fun k => if k = "a.json" then some vaSample else Option.none
    summaryOutcome := AggregateResults.BedrockSummaryOutcome.err "endpoint unreachable"
    projectExists := true
    createProjectOk := true
    reportInsertOk := true
    backupPutOk := true
    failureInsertOk := true }

/-- Reducer environment for the C4 witness: zero result keys listed. -/
def envC4w : AggregateResults.ReduceEnv :=
  { keys := []
    read := fun _ => Option.none
    summaryOutcome := AggregateResults.BedrockSummaryOutcome.err "endpoint unreachable"
    projectExists := true
    createProjectOk := true
    reportInsertOk := true
    backupPutOk := true
    failureInsertOk := true }

/-- Reducer environment for the C5 counterexample: the summarizer call
succeeds but its content text is not valid JSON. -/
def envC5x : AggregateResults.ReduceEnv :=
  { keys := ["a.json", "b.json"]
    read := fun k =>
      if k = "a.json" then some vaSample
      else if k = "b.json" then some vbSample
      else Option.none
    summaryOutcome := AggregateResults.BedrockSummaryOutcome.ok
      (AggregateResults.SummaryContent.notJson "Sure, here is a summary in prose.")
    projectExists := true
    createProjectOk := true
    reportInsertOk := true
    backupPutOk := true
    failureInsertOk := true }

/-- Reducer environment for the C5 witness: the summarizer call itself
throws. -/
def envC5w : AggregateResults.ReduceEnv :=
  { keys := ["a.json", "b.json"]
    read := fun k =>
      if k = "a.json" then some vaSample
      else if k = "b.json" then some vbSample
      else Option.none
    summaryOutcome := AggregateResults.BedrockSummaryOutcome.err "AccessDeniedException"
    projectExists := true
    createProjectOk := true
    reportInsertOk := true
    backupPutOk := true
    failureInsertOk := true }

/-- Raw classifier verdict with a valid score, for analyzer witnesses. -/
def rawSample : RawVerdict :=
  { file_name := "a", automation_score := some 7, has_tests := true,
    test_type := TestType.unit, observations := ["has tests"],
    improvement_suggestions := ["add e2e"] }

/-- Analyzer event for the analyzer witnesses. -/
def evSample : AnalyzeFile.AnalysisInput :=
  { fileKey := "u/p/exploded-repo/a", fileName := "a", userId := "u",
    projectId := "p", jobExecutionId := "j" }

/-- Analyzer environment whose unit-content fetch fails. -/
def envFetchFail : AnalyzeFile.AnalyzeEnv :=
  { fetchResult := Except.error "NoSuchKey"
    classify := fun _ => Except.error "unreachable"
    putResult := Option.none }

/-- Analyzer environment that succeeds end to end. -/
def envAnalyzeOk : AnalyzeFile.AnalyzeEnv :=
  { fetchResult := Except.ok "let x = 1"
    classify := fun _ => Except.ok rawSample
    putResult := Option.none }

/-- Analyzer environment whose result writes all throw. -/
def envPutFail : AnalyzeFile.AnalyzeEnv :=
  { fetchResult := Except.ok "let x = 1"
    classify := fun _ => Except.ok rawSample
    putResult := some "disk full" }

/-- Machine environment for the C6 theorems; the per-unit environment is
never consulted on an empty path list. -/
def menvC6 : Pipeline.MachineEnv :=
  { perUnit := fun _ => envFetchFail
    summaryOutcome := AggregateResults.BedrockSummaryOutcome.err "down"
    projectExists := true
    createProjectOk := true
    reportInsertOk := true
    backupPutOk := true
    failureInsertOk := true }

/-- After-explode event with auto continuation on and an empty surviving
path list. -/
def emptyExplodeEvent : Pipeline.AfterExplodeInput :=
  { autoStartAnalysis := true
    analysisStateMachineArn := some "arn:analysis"
    filePaths := [] }

/-- The summary prompt the Reducer builds for a list of parsed analyses:
all their observations and all their scores, in list order. -/
def promptFor (analyses : List FileAnalysis) : AggregateResults.SummaryPromptData :=
  AggregateResults.generateSummaryPrompt
    (analyses.flatMap (fun a => a.observations))
    (analyses.map (fun a => a.automation_score))

/-
Helper lemmas shared by the claim theorems.
-/

/-- A list with a member distinct from nil is not isEmpty. -/
theorem isEmpty_false_of_ne_nil {α : Type} (l : List α) (h : l ≠ []) :
    l.isEmpty = false := by
  cases l with
  | nil => exact absurd rfl h
  | cons a t => rfl

/-- The aggregate-results handler on the success path: some parseable
analyses and all persistence succeeding yield exactly the computed
report, inserted once. -/
theorem handler_success (env : AggregateResults.ReduceEnv)
    (event : AggregateResults.AggregatorInput)
    (hne : (env.keys.filter (fun k => strEndsWith k ".json")).filterMap env.read ≠ [])
    (hproj : env.projectExists = true)
    (hrep : env.reportInsertOk = true)
    (hback : env.backupPutOk = true) :
    AggregateResults.handler env event =
      (Except.ok (AggregateResults.computeReport event
          ((env.keys.filter (fun k => strEndsWith k ".json")).filterMap env.read)
          env.summaryOutcome),
        [AggregateResults.computeReport event
          ((env.keys.filter (fun k => strEndsWith k ".json")).filterMap env.read)
          env.summaryOutcome]) := by
  have hfil : env.keys.filter (fun k => strEndsWith k ".json") ≠ [] := by
    intro h
    apply hne
    rw [h]
    rfl
  have h1 := isEmpty_false_of_ne_nil _ hfil
  have h2 := isEmpty_false_of_ne_nil _ hne
  simp only [AggregateResults.handler, h1, h2, hproj, hrep, hback,
    Bool.false_eq_true, if_false, Bool.not_true, Bool.false_and]

/-- The sum of a nonempty list of rationals in the range 0..10, divided
by its length, stays in the range 0..10. -/
theorem list_mean_bounds (l : List ℚ) (hne : l ≠ [])
    (h : ∀ x ∈ l, 0 ≤ x ∧ x ≤ 10) :
    0 ≤ l.sum / (l.length : ℚ) ∧ l.sum / (l.length : ℚ) ≤ 10 := by
  have hlen : 0 < l.length := List.length_pos.mpr hne
  have hlenQ : (0 : ℚ) < (l.length : ℚ) := by exact_mod_cast hlen
  have hsum0 : 0 ≤ l.sum := List.sum_nonneg (fun x hx => (h x hx).1)
  have hsum10 : l.sum ≤ (l.length : ℚ) * 10 := by
    calc l.sum ≤ l.length • (10 : ℚ) :=
          List.sum_le_card_nsmul l 10 (fun x hx => (h x hx).2)
      _ = (l.length : ℚ) * 10 := by rw [nsmul_eq_mul]
  constructor
  · exact div_nonneg hsum0 hlenQ.le
  · rw [div_le_iff₀ hlenQ]
    linarith

/-- Math.round of a rational in the range 0..100 stays in 0..100. -/
theorem jsRound_bounds (q : ℚ) (h0 : 0 ≤ q) (h100 : q ≤ 100) :
    0 ≤ jsRound q ∧ jsRound q ≤ 100 := by
  constructor
  · apply Int.le_floor.mpr
    push_cast
    linarith
  · have hlt : jsRound q < 101 := by
      unfold jsRound
      apply Int.floor_lt.mpr
      push_cast
      linarith
    omega

/-- Objects whose key does not match the put key are unaffected, so
filtering the store for the put key returns exactly the new object. -/
theorem filter_erased (store : AnalyzeFile.S3Store) (key : String) :
    (store.filter (fun p => !(p.1 == key))).filter (fun p => p.1 == key) = [] := by
  induction store with
  | nil => rfl
  | cons hd tl ih =>
    by_cases hk : hd.1 == key
    · simp [hk, ih]
    · simp only [List.filter_cons]
      rw [if_pos (by simp [hk])]
      simp only [List.filter_cons]
      rw [if_neg (by simp [hk])]
      exact ih

/-- A PutObject leaves exactly one object stored at the written key. -/
theorem filter_s3Put (store : AnalyzeFile.S3Store) (key : String)
    (v : FileAnalysis) :
    (AnalyzeFile.s3Put store key v).filter (fun p => p.1 == key) = [(key, v)] := by
  unfold AnalyzeFile.s3Put
  simp only [List.filter_cons]
  rw [if_pos (by simp)]
  rw [filter_erased]

/-- Reading back the key just written returns the written object. -/
theorem s3Get_s3Put (store : AnalyzeFile.S3Store) (key : String)
    (v : FileAnalysis) :
    AnalyzeFile.s3Get (AnalyzeFile.s3Put store key v) key = some v := by
  unfold AnalyzeFile.s3Get AnalyzeFile.s3Put
  rw [List.find?_cons_of_pos _ (by simp)]
  rfl

/-- When the PutObject of the invocation succeeds, every control path of
the analyze-file handler ends in a full overwrite of the derived result
key with the returned verdict. -/
theorem analyze_handler_writes (env : AnalyzeFile.AnalyzeEnv)
    (event : AnalyzeFile.AnalysisInput) (store : AnalyzeFile.S3Store)
    (h : env.putResult = Option.none) :
    (AnalyzeFile.handler env event store).2 =
      AnalyzeFile.s3Put store (AnalyzeFile.resultKey event)
        (AnalyzeFile.handler env event store).1 := by
  cases hf : env.fetchResult with
  | error msg => simp [AnalyzeFile.handler, hf, h]
  | ok c =>
    simp only [AnalyzeFile.handler, hf]
    cases hc : env.classify (AnalyzeFile.generateUserPrompt event.fileName
        (AnalyzeFile.truncateContent c)) with
    | error m => simp [AnalyzeFile.analyzeAfterClassify, hc, h]
    | ok raw =>
      cases hv : AnalyzeFile.validateScore raw with
      | none => simp [AnalyzeFile.analyzeAfterClassify, hc, hv, h]
      | some res => simp [AnalyzeFile.analyzeAfterClassify, hc, hv, h]

/-- A verdict accepted by the range validation carries a score in the
range 0..10. -/
theorem validateScore_bounds (raw : RawVerdict) (v : FileAnalysis)
    (h : AnalyzeFile.validateScore raw = some v) :
    0 ≤ v.automation_score ∧ v.automation_score ≤ 10 := by
  unfold AnalyzeFile.validateScore at h
  cases hs : raw.automation_score with
  | none => rw [hs] at h; exact absurd h (by simp)
  | some s =>
    rw [hs] at h
    dsimp only at h
    by_cases hbad : s < 0 ∨ s > 10
    · rw [if_pos hbad] at h
      exact absurd h (by simp)
    · rw [if_neg hbad] at h
      push_neg at hbad
      have hv : v.automation_score = s := by
        injection h with h
        rw [← h]
      rw [hv]
      exact ⟨hbad.1, hbad.2⟩

/-- The joined text of a nonempty line list is at least as long as its
first line. -/
theorem joinLines_cons_length (a : String) (l : List String) :
    a.length ≤ (joinLines (a :: l)).length := by
  cases l with
  | nil => simp [joinLines]
  | cons b t =>
    have hnl : ("\n" : String).length = 1 := rfl
    simp [joinLines, String.length_append, hnl]
    omega

/-- The fallback summary always starts with one of the three threshold
lines and has two or three further lines. -/
theorem generateFallbackSummary_shape (p : AggregateResults.SummaryPromptData) :
    ∃ l1 rest, AggregateResults.generateFallbackSummary p = l1 :: rest ∧
      1 ≤ l1.length ∧ (rest.length = 2 ∨ rest.length = 3) := by
  unfold AggregateResults.generateFallbackSummary
  by_cases h1 : p.avgScore1 ≥ 8 <;> by_cases h3 : p.avgScore1 < 7 <;>
    simp only [h1, h3, if_true, if_false] <;>
    first
      | exact ⟨_, _, rfl, by decide, by simp⟩
      | (by_cases h2 : p.avgScore1 ≥ 6 <;> simp only [h2, if_true, if_false] <;>
          exact ⟨_, _, rfl, by decide, by simp⟩)

/-- The joined fallback summary text is never empty. -/
theorem joinLines_fallback_ne_empty (p : AggregateResults.SummaryPromptData) :
    joinLines (AggregateResults.generateFallbackSummary p) ≠ "" := by
  obtain ⟨l1, rest, heq, hlen, _⟩ := generateFallbackSummary_shape p
  rw [heq]
  intro h
  have hle := joinLines_cons_length l1 rest
  rw [h] at hle
  simp at hle
  omega

/-- The fallback summary depends only on the average score and total
file count embedded in the prompt, never on observation text. -/
theorem generateFallbackSummary_stats_only
    (p q : AggregateResults.SummaryPromptData)
    (h1 : q.avgScore1 = p.avgScore1) (h2 : q.totalFiles = p.totalFiles) :
    AggregateResults.generateFallbackSummary q =
      AggregateResults.generateFallbackSummary p := by
  unfold AggregateResults.generateFallbackSummary
  rw [h1, h2]

/-
Claim theorems.
-/

/-- Claim C1: for every reduction over a non-empty set of successfully
parsed Verdicts with all persistence succeeding, the Aggregate Report
satisfies: total_files is the number of parsed Verdicts, files_with_tests
counts the parsed Verdicts with has_tests, average_score is the mean of
the parsed scores rounded to one decimal, overall_score is the rounded
mean times ten; and when every parsed score lies in the range 0..10, the
overall score lies in the range 0..100. -/
theorem aggregate_report_metrics
    (env : AggregateResults.ReduceEnv) (event : AggregateResults.AggregatorInput)
    (analyses : List FileAnalysis)
    (hana : (env.keys.filter (fun k => strEndsWith k ".json")).filterMap env.read = analyses)
    (hne : analyses ≠ [])
    (hproj : env.projectExists = true)
    (hrep : env.reportInsertOk = true)
    (hback : env.backupPutOk = true) :
    ∃ r : AggregateResults.ReportData,
      AggregateResults.handler env event = (Except.ok r, [r]) ∧
      r.total_files = analyses.length ∧
      r.files_with_tests = (analyses.filter (fun a => a.has_tests)).length ∧
      r.average_score =
        (jsRound ((analyses.map (fun a => a.automation_score)).sum /
          (analyses.length : ℚ) * 10) : ℚ) / 10 ∧
      r.overall_score =
        jsRound ((analyses.map (fun a => a.automation_score)).sum /
          (analyses.length : ℚ) * 10) ∧
      ((∀ a ∈ analyses, 0 ≤ a.automation_score ∧ a.automation_score ≤ 10) →
        0 ≤ r.overall_score ∧ r.overall_score ≤ 100) := by
  have hs := handler_success env event (by rw [hana]; exact hne) hproj hrep hback
  rw [hana] at hs
  refine ⟨AggregateResults.computeReport event analyses env.summaryOutcome,
    hs, rfl, rfl, ?_, ?_, ?_⟩
  · simp [AggregateResults.computeReport, List.length_map]
  · simp [AggregateResults.computeReport, List.length_map]
  · intro hb
    have hmapne : analyses.map (fun a => a.automation_score) ≠ [] := by
      intro h
      exact hne (List.map_eq_nil_iff.mp h)
    have hmem : ∀ x ∈ analyses.map (fun a => a.automation_score),
        0 ≤ x ∧ x ≤ 10 := by
      intro x hx
      obtain ⟨a, ha, rfl⟩ := List.mem_map.mp hx
      exact hb a ha
    have hmean := list_mean_bounds _ hmapne hmem
    rw [List.length_map] at hmean
    have hfield :
        (AggregateResults.computeReport event analyses env.summaryOutcome).overall_score =
          jsRound ((analyses.map (fun a => a.automation_score)).sum /
            (analyses.length : ℚ) * 10) := by
      simp [AggregateResults.computeReport, List.length_map]
    rw [hfield]
    exact jsRound_bounds _ (by nlinarith [hmean.1]) (by nlinarith [hmean.2])

/-- Witness for C1: three parsed verdicts with scores 10, 5, 0 and
has_tests true, false, false give total 3, tested 1, mean 5.0 and
overall score 50. -/
theorem aggregate_report_metrics_witness :
    ∃ r : AggregateResults.ReportData,
      AggregateResults.handler envC1w eventSample = (Except.ok r, [r]) ∧
      r.total_files = 3 ∧
      r.files_with_tests = 1 ∧
      r.average_score = 5 ∧
      r.overall_score = 50 ∧
      0 ≤ r.overall_score ∧ r.overall_score ≤ 100 := by
  obtain ⟨r, h1, h2, h3, h4, h5, h6⟩ :=
    aggregate_report_metrics envC1w eventSample [vaSample, vbSample, vcSample]
      (by decide) (by decide) rfl rfl rfl
  have hb := h6 (by decide)
  refine ⟨r, h1, ?_, ?_, ?_, ?_, hb.1, hb.2⟩
  · simpa using h2
  · rw [h3]; decide
  · rw [h4]; norm_num [vaSample, vbSample, vcSample, jsRound]
  · rw [h5]; norm_num [vaSample, vbSample, vcSample, jsRound]

/-- Claim C3: when N result keys are listed for the job but only M of
them have parseable bodies, with 1 ≤ M < N, the unreadable keys are
skipped without aborting, the report has total_files M rather than N,
and the job still completes with a persisted report. -/
theorem aggregate_skips_unparseable
    (env : AggregateResults.ReduceEnv) (event : AggregateResults.AggregatorInput)
    (hjson : ∀ k ∈ env.keys, strEndsWith k ".json" = true)
    (hM : env.keys.filterMap env.read ≠ [])
    (hMN : (env.keys.filterMap env.read).length < env.keys.length)
    (hproj : env.projectExists = true)
    (hrep : env.reportInsertOk = true)
    (hback : env.backupPutOk = true) :
    ∃ r : AggregateResults.ReportData,
      AggregateResults.handler env event = (Except.ok r, [r]) ∧
      r.total_files = (env.keys.filterMap env.read).length ∧
      r.total_files < env.keys.length ∧
      r.total_files ≠ env.keys.length := by
  have hfil : env.keys.filter (fun k => strEndsWith k ".json") = env.keys :=
    List.filter_eq_self.mpr hjson
  have hs := handler_success env event (by rw [hfil]; exact hM) hproj hrep hback
  rw [hfil] at hs
  have ht : (AggregateResults.computeReport event (env.keys.filterMap env.read)
      env.summaryOutcome).total_files = (env.keys.filterMap env.read).length := rfl
  refine ⟨_, hs, ht, ?_, ?_⟩
  · rw [ht]; exact hMN
  · rw [ht]; omega

/-- Witness for C3: two listed result keys, one parseable body; the
report persists with total_files 1, not 2. -/
theorem aggregate_skips_unparseable_witness :
    ∃ r : AggregateResults.ReportData,
      AggregateResults.handler envC3w eventSample = (Except.ok r, [r]) ∧
      r.total_files = (envC3w.keys.filterMap envC3w.read).length ∧
      r.total_files < envC3w.keys.length ∧
      r.total_files ≠ envC3w.keys.length :=
  aggregate_skips_unparseable envC3w eventSample (by decide) (by decide)
    (by decide) rfl rfl rfl

/-- Claim C4: when reduction fails with zero listed result keys, zero
parseable results, or a failed report insert, the Reducer persists an
explicit failure report with zeroed metrics and the error message in its
summary, so the job terminates in exactly one report row. -/
theorem aggregate_failure_report_row
    (env : AggregateResults.ReduceEnv) (event : AggregateResults.AggregatorInput)
    (hfi : env.failureInsertOk = true)
    (hcase :
      env.keys.filter (fun k => strEndsWith k ".json") = [] ∨
      (env.keys.filter (fun k => strEndsWith k ".json") ≠ [] ∧
        (env.keys.filter (fun k => strEndsWith k ".json")).filterMap env.read = []) ∨
      ((env.keys.filter (fun k => strEndsWith k ".json")).filterMap env.read ≠ [] ∧
        (env.projectExists = true ∨ env.createProjectOk = true) ∧
        env.reportInsertOk = false)) :
    ∃ msg, AggregateResults.handler env event =
        (Except.ok (AggregateResults.failureReport event.projectId msg),
          [AggregateResults.failureReport event.projectId msg]) ∧
      (AggregateResults.failureReport event.projectId msg).overall_score = 0 ∧
      (AggregateResults.failureReport event.projectId msg).total_files = 0 ∧
      (AggregateResults.failureReport event.projectId msg).files_with_tests = 0 ∧
      (AggregateResults.failureReport event.projectId msg).average_score = 0 ∧
      (AggregateResults.failureReport event.projectId msg).summary =
        "Analysis failed: " ++ msg := by
  rcases hcase with h | ⟨h1, h2⟩ | ⟨h1, h2, h3⟩
  · refine ⟨"No analysis results found to aggregate", ?_, rfl, rfl, rfl, rfl, rfl⟩
    have he : (env.keys.filter (fun k => strEndsWith k ".json")).isEmpty = true := by
      rw [h]; rfl
    simp [AggregateResults.handler, he, AggregateResults.catchHandler, hfi]
  · refine ⟨"Failed to read any valid analysis results", ?_, rfl, rfl, rfl, rfl, rfl⟩
    have he1 := isEmpty_false_of_ne_nil _ h1
    have he2 : ((env.keys.filter (fun k => strEndsWith k ".json")).filterMap
        env.read).isEmpty = true := by
      rw [h2]; rfl
    simp [AggregateResults.handler, he1, he2, AggregateResults.catchHandler, hfi]
  · refine ⟨"Failed to create project report: insert failed", ?_, rfl, rfl, rfl, rfl, rfl⟩
    have hf1 : env.keys.filter (fun k => strEndsWith k ".json") ≠ [] := by
      intro h
      apply h1
      rw [h]
      rfl
    have he1 := isEmpty_false_of_ne_nil _ hf1
    have he2 := isEmpty_false_of_ne_nil _ h1
    have hpc : (!env.projectExists && !env.createProjectOk) = false := by
      rcases h2 with h2 | h2 <;> simp [h2]
    simp [AggregateResults.handler, he1, he2, hpc, h3,
      AggregateResults.catchHandler, hfi]

/-- Witness for C4: zero result keys listed; the handler returns the
zeroed failure report and inserts exactly that one row. -/
theorem aggregate_failure_report_row_witness :
    ∃ msg, AggregateResults.handler envC4w eventSample =
        (Except.ok (AggregateResults.failureReport eventSample.projectId msg),
          [AggregateResults.failureReport eventSample.projectId msg]) ∧
      (AggregateResults.failureReport eventSample.projectId msg).overall_score = 0 ∧
      (AggregateResults.failureReport eventSample.projectId msg).total_files = 0 ∧
      (AggregateResults.failureReport eventSample.projectId msg).files_with_tests = 0 ∧
      (AggregateResults.failureReport eventSample.projectId msg).average_score = 0 ∧
      (AggregateResults.failureReport eventSample.projectId msg).summary =
        "Analysis failed: " ++ msg :=
  aggregate_failure_report_row envC4w eventSample rfl (Or.inl (by decide))

/-- Counterexample for C5 as stated: when the summarizer call succeeds
but its content text is not valid JSON (an unparseable output), the
report summary is the fixed line, not the threshold-derived fallback
text the claim requires for that input. -/
theorem summary_fallback_counterexample :
    (AggregateResults.handler envC5x eventSample).2.map (fun r => r.summary) =
        ["Analysis completed with mixed results"] ∧
      "Analysis completed with mixed results" ≠
        joinLines (AggregateResults.generateFallbackSummary
          (AggregateResults.generateSummaryPrompt ["obs a", "obs b"] [10, 5])) := by
  constructor
  · decide
  · have hf : AggregateResults.generateFallbackSummary
        (AggregateResults.generateSummaryPrompt ["obs a", "obs b"] [10, 5]) =
        ["Moderate test automation coverage with room for improvement",
         "Analyzed 2 files with average score of 7.5/10",
         "Maintain current testing standards and optimize existing tests"] := by
      norm_num [AggregateResults.generateFallbackSummary,
        AggregateResults.generateSummaryPrompt, AggregateResults.toFixed1,
        AggregateResults.fmtFixed1, jsRound]
      rfl
    rw [hf]
    decide

/-- Claim C5 as amended: when the summarizer call itself throws (endpoint
unreachable or response envelope unparseable), the report summary is the
non-empty three-or-four-line fallback text derived only from the mean
score and total count via the fixed thresholds; when the call succeeds
but its content text is not valid JSON, the summary is the fixed line
Analysis completed with mixed results.  In both cases no classifier text
is present. -/
theorem summary_fallback_amended
    (env : AggregateResults.ReduceEnv) (event : AggregateResults.AggregatorInput)
    (analyses : List FileAnalysis)
    (hana : (env.keys.filter (fun k => strEndsWith k ".json")).filterMap env.read = analyses)
    (hne : analyses ≠ [])
    (hproj : env.projectExists = true)
    (hrep : env.reportInsertOk = true)
    (hback : env.backupPutOk = true) :
    (∀ m, env.summaryOutcome = AggregateResults.BedrockSummaryOutcome.err m →
      ∃ r : AggregateResults.ReportData,
        AggregateResults.handler env event = (Except.ok r, [r]) ∧
        r.summary = joinLines
          (AggregateResults.generateFallbackSummary (promptFor analyses)) ∧
        r.summary ≠ "" ∧
        ((AggregateResults.generateFallbackSummary (promptFor analyses)).length = 3 ∨
          (AggregateResults.generateFallbackSummary (promptFor analyses)).length = 4) ∧
        (∀ q : AggregateResults.SummaryPromptData,
          q.avgScore1 = (promptFor analyses).avgScore1 →
          q.totalFiles = (promptFor analyses).totalFiles →
          AggregateResults.generateFallbackSummary q =
            AggregateResults.generateFallbackSummary (promptFor analyses))) ∧
    (∀ raw, env.summaryOutcome =
        AggregateResults.BedrockSummaryOutcome.ok
          (AggregateResults.SummaryContent.notJson raw) →
      ∃ r : AggregateResults.ReportData,
        AggregateResults.handler env event = (Except.ok r, [r]) ∧
        r.summary = "Analysis completed with mixed results") := by
  have hs := handler_success env event (by rw [hana]; exact hne) hproj hrep hback
  rw [hana] at hs
  constructor
  · intro m hm
    refine ⟨AggregateResults.computeReport event analyses env.summaryOutcome,
      hs, ?_, ?_, ?_, ?_⟩
    · simp [AggregateResults.computeReport, hm,
        AggregateResults.callBedrockForSummary, promptFor]
    · have hsum : (AggregateResults.computeReport event analyses
          env.summaryOutcome).summary =
            joinLines (AggregateResults.generateFallbackSummary (promptFor analyses)) := by
        simp [AggregateResults.computeReport, hm,
          AggregateResults.callBedrockForSummary, promptFor]
      rw [hsum]
      exact joinLines_fallback_ne_empty (promptFor analyses)
    · obtain ⟨l1, rest, heq, _, hr⟩ := generateFallbackSummary_shape (promptFor analyses)
      rw [heq]
      rcases hr with hr | hr <;> simp [hr]
    · intro q hq1 hq2
      exact generateFallbackSummary_stats_only (promptFor analyses) q hq1 hq2
  · intro raw hm
    refine ⟨AggregateResults.computeReport event analyses env.summaryOutcome, hs, ?_⟩
    simp [AggregateResults.computeReport, hm,
      AggregateResults.callBedrockForSummary, joinLines]

/-- Witness for the amended C5: with the summarizer unreachable, the
report summary is exactly the joined fallback text and is non-empty. -/
theorem summary_fallback_amended_witness :
    ∃ r : AggregateResults.ReportData,
      AggregateResults.handler envC5w eventSample = (Except.ok r, [r]) ∧
      r.summary = joinLines
        (AggregateResults.generateFallbackSummary
          (promptFor [vaSample, vbSample])) ∧
      r.summary ≠ "" := by
  obtain ⟨h1, _⟩ := summary_fallback_amended envC5w eventSample [vaSample, vbSample]
    (by decide) (by decide) rfl rfl rfl
  obtain ⟨r, ha, hb, hc, _, _⟩ := h1 "AccessDeniedException" rfl
  exact ⟨r, ha, hb, hc⟩

/-- The analyze-file handler returns either a canonical failure verdict
or a verdict that passed the range validation. -/
theorem analyze_handler_shape (env : AnalyzeFile.AnalyzeEnv)
    (event : AnalyzeFile.AnalysisInput) (store : AnalyzeFile.S3Store) :
    (∃ m, (AnalyzeFile.handler env event store).1 =
      AnalyzeFile.failedResult event.fileName m) ∨
    (∃ raw res, AnalyzeFile.validateScore raw = some res ∧
      (AnalyzeFile.handler env event store).1 = res) := by
  cases hf : env.fetchResult with
  | error msg =>
    exact Or.inl ⟨msg, by
      cases hp : env.putResult <;> simp [AnalyzeFile.handler, hf, hp]⟩
  | ok c =>
    cases hc : env.classify (AnalyzeFile.generateUserPrompt event.fileName
        (AnalyzeFile.truncateContent c)) with
    | error m =>
      exact Or.inl ⟨m, by
        cases hp : env.putResult <;>
          simp [AnalyzeFile.handler, AnalyzeFile.analyzeAfterClassify, hf, hc, hp]⟩
    | ok raw =>
      cases hv : AnalyzeFile.validateScore raw with
      | none =>
        exact Or.inl ⟨"Invalid automation_score in AI response", by
          cases hp : env.putResult <;>
            simp [AnalyzeFile.handler, AnalyzeFile.analyzeAfterClassify, hf, hc, hv, hp]⟩
      | some res =>
        cases hp : env.putResult with
        | none =>
          exact Or.inr ⟨raw, res, hv, by
            simp [AnalyzeFile.handler, AnalyzeFile.analyzeAfterClassify, hf, hc, hv, hp]⟩
        | some e0 =>
          exact Or.inl ⟨e0, by
            simp [AnalyzeFile.handler, AnalyzeFile.analyzeAfterClassify, hf, hc, hv, hp]⟩

/-- When every PutObject of the invocation throws, the analyze-file
handler leaves the store untouched and returns a canonical failure
verdict: the write error of the failure save is swallowed. -/
theorem analyze_handler_put_fail (env : AnalyzeFile.AnalyzeEnv)
    (event : AnalyzeFile.AnalysisInput) (store : AnalyzeFile.S3Store)
    (e : String) (he : env.putResult = some e) :
    ∃ m, AnalyzeFile.handler env event store =
      (AnalyzeFile.failedResult event.fileName m, store) := by
  cases hf : env.fetchResult with
  | error msg => exact ⟨msg, by simp [AnalyzeFile.handler, hf, he]⟩
  | ok c =>
    cases hc : env.classify (AnalyzeFile.generateUserPrompt event.fileName
        (AnalyzeFile.truncateContent c)) with
    | error m =>
      exact ⟨m, by
        simp [AnalyzeFile.handler, AnalyzeFile.analyzeAfterClassify, hf, hc, he]⟩
    | ok raw =>
      cases hv : AnalyzeFile.validateScore raw with
      | none =>
        exact ⟨"Invalid automation_score in AI response", by
          simp [AnalyzeFile.handler, AnalyzeFile.analyzeAfterClassify, hf, hc, hv, he]⟩
      | some res =>
        exact ⟨e, by
          simp [AnalyzeFile.handler, AnalyzeFile.analyzeAfterClassify, hf, hc, hv, he]⟩

/-- Claim C2: whenever the unit-content fetch fails, the classifier call
fails or returns invalid JSON, or the returned score is non-numeric or
out of range, the analyzer substitutes the canonical failure verdict
(score 0, has_tests false, test_type none, one observation naming the
cause) and still overwrites the derived result key of the job and unit
path with it, so the failure is a completed, reduceable record. -/
theorem analyze_failure_verdict_written
    (env : AnalyzeFile.AnalyzeEnv) (event : AnalyzeFile.AnalysisInput)
    (store : AnalyzeFile.S3Store)
    (hput : env.putResult = Option.none)
    (hcase :
      (∃ m, env.fetchResult = Except.error m) ∨
      (∃ c m, env.fetchResult = Except.ok c ∧
        env.classify (AnalyzeFile.generateUserPrompt event.fileName
          (AnalyzeFile.truncateContent c)) = Except.error m) ∨
      (∃ c raw, env.fetchResult = Except.ok c ∧
        env.classify (AnalyzeFile.generateUserPrompt event.fileName
          (AnalyzeFile.truncateContent c)) = Except.ok raw ∧
        AnalyzeFile.validateScore raw = Option.none)) :
    ∃ m, AnalyzeFile.handler env event store =
        (AnalyzeFile.failedResult event.fileName m,
          AnalyzeFile.s3Put store (AnalyzeFile.resultKey event)
            (AnalyzeFile.failedResult event.fileName m)) ∧
      (AnalyzeFile.failedResult event.fileName m).automation_score = 0 ∧
      (AnalyzeFile.failedResult event.fileName m).has_tests = false ∧
      (AnalyzeFile.failedResult event.fileName m).test_type = TestType.none ∧
      (AnalyzeFile.failedResult event.fileName m).observations =
        ["Analysis failed: " ++ m] ∧
      AnalyzeFile.s3Get (AnalyzeFile.handler env event store).2
        (AnalyzeFile.resultKey event) =
        some (AnalyzeFile.failedResult event.fileName m) := by
  rcases hcase with ⟨m, hm⟩ | ⟨c, m, hc, hm⟩ | ⟨c, raw, hc, hm, hv⟩
  · have hh : AnalyzeFile.handler env event store =
        (AnalyzeFile.failedResult event.fileName m,
          AnalyzeFile.s3Put store (AnalyzeFile.resultKey event)
            (AnalyzeFile.failedResult event.fileName m)) := by
      simp [AnalyzeFile.handler, hm, hput]
    exact ⟨m, hh, rfl, rfl, rfl, rfl, by rw [hh]; exact s3Get_s3Put _ _ _⟩
  · have hh : AnalyzeFile.handler env event store =
        (AnalyzeFile.failedResult event.fileName m,
          AnalyzeFile.s3Put store (AnalyzeFile.resultKey event)
            (AnalyzeFile.failedResult event.fileName m)) := by
      simp [AnalyzeFile.handler, AnalyzeFile.analyzeAfterClassify, hc, hm, hput]
    exact ⟨m, hh, rfl, rfl, rfl, rfl, by rw [hh]; exact s3Get_s3Put _ _ _⟩
  · have hh : AnalyzeFile.handler env event store =
        (AnalyzeFile.failedResult event.fileName "Invalid automation_score in AI response",
          AnalyzeFile.s3Put store (AnalyzeFile.resultKey event)
            (AnalyzeFile.failedResult event.fileName
              "Invalid automation_score in AI response")) := by
      simp [AnalyzeFile.handler, AnalyzeFile.analyzeAfterClassify, hc, hm, hv, hput]
    exact ⟨"Invalid automation_score in AI response", hh, rfl, rfl, rfl, rfl,
      by rw [hh]; exact s3Get_s3Put _ _ _⟩

/-- Witness for C2: a failed unit-content fetch produces the canonical
failure verdict and writes it under the derived result key. -/
theorem analyze_failure_verdict_written_witness :
    ∃ m, AnalyzeFile.handler envFetchFail evSample [] =
        (AnalyzeFile.failedResult evSample.fileName m,
          AnalyzeFile.s3Put [] (AnalyzeFile.resultKey evSample)
            (AnalyzeFile.failedResult evSample.fileName m)) ∧
      (AnalyzeFile.failedResult evSample.fileName m).automation_score = 0 ∧
      (AnalyzeFile.failedResult evSample.fileName m).has_tests = false ∧
      (AnalyzeFile.failedResult evSample.fileName m).test_type = TestType.none ∧
      (AnalyzeFile.failedResult evSample.fileName m).observations =
        ["Analysis failed: " ++ m] ∧
      AnalyzeFile.s3Get (AnalyzeFile.handler envFetchFail evSample []).2
        (AnalyzeFile.resultKey evSample) =
        some (AnalyzeFile.failedResult evSample.fileName m) :=
  analyze_failure_verdict_written envFetchFail evSample [] rfl
    (Or.inl ⟨"NoSuchKey", rfl⟩)

/-- Claim C7: running the Unit Analyzer twice for the same job id and
unit path leaves exactly one stored Verdict at the derived result key,
equal to the verdict of the second run: the result write is a full
overwrite, never an append. -/
theorem analyze_idempotent_overwrite
    (env1 env2 : AnalyzeFile.AnalyzeEnv) (event : AnalyzeFile.AnalysisInput)
    (store : AnalyzeFile.S3Store)
    (h2 : env2.putResult = Option.none) :
    ((AnalyzeFile.handler env2 event
        ((AnalyzeFile.handler env1 event store).2)).2).filter
          (fun p => p.1 == AnalyzeFile.resultKey event) =
      [(AnalyzeFile.resultKey event,
        (AnalyzeFile.handler env2 event
          ((AnalyzeFile.handler env1 event store).2)).1)] := by
  rw [analyze_handler_writes env2 event _ h2]
  exact filter_s3Put _ _ _

/-- Witness for C7: a failed first run followed by a successful second
run leaves exactly the second verdict stored at the key. -/
theorem analyze_idempotent_overwrite_witness :
    ((AnalyzeFile.handler envAnalyzeOk evSample
        ((AnalyzeFile.handler envFetchFail evSample []).2)).2).filter
          (fun p => p.1 == AnalyzeFile.resultKey evSample) =
      [(AnalyzeFile.resultKey evSample,
        (AnalyzeFile.handler envAnalyzeOk evSample
          ((AnalyzeFile.handler envFetchFail evSample []).2)).1)] :=
  analyze_idempotent_overwrite envFetchFail envAnalyzeOk evSample [] rfl

/-- Claim C8: the content submitted to the classifier equals the stored
content when it has at most 50000 characters, and otherwise equals the
first 50000 characters followed by the truncation marker; the handler
consults the classifier only on the prompt built from the truncated
content, so truncation happens before the classifier call. -/
theorem analyze_truncation_before_classify :
    (∀ s : String, AnalyzeFile.truncateContent s =
      if 50000 < s.length then
        s.take 50000 ++ "\n... [Content truncated for analysis]"
      else s) ∧
    (∀ (env : AnalyzeFile.AnalyzeEnv) (event : AnalyzeFile.AnalysisInput)
        (store : AnalyzeFile.S3Store) (c : String),
      env.fetchResult = Except.ok c →
      AnalyzeFile.handler env event store =
        AnalyzeFile.analyzeAfterClassify env event store
          (env.classify (AnalyzeFile.generateUserPrompt event.fileName
            (AnalyzeFile.truncateContent c)))) := by
  constructor
  · intro s
    rfl
  · intro env event store c h
    simp [AnalyzeFile.handler, h]

/-- Witness for C8: a short content is passed through unchanged and the
handler factors through the classifier applied to the truncated
prompt. -/
theorem analyze_truncation_before_classify_witness :
    AnalyzeFile.handler envAnalyzeOk evSample [] =
      AnalyzeFile.analyzeAfterClassify envAnalyzeOk evSample []
        (envAnalyzeOk.classify (AnalyzeFile.generateUserPrompt evSample.fileName
          (AnalyzeFile.truncateContent "let x = 1"))) ∧
    AnalyzeFile.truncateContent "let x = 1" = "let x = 1" := by
  constructor
  · exact analyze_truncation_before_classify.2 envAnalyzeOk evSample [] "let x = 1" rfl
  · rw [analyze_truncation_before_classify.1 "let x = 1"]
    decide

/-- Claim C10: the analyze-file handler is total and returns a verdict
whose score lies in the range 0..10 for every input; when every durable
write throws, the write error is swallowed, the store is untouched, and
the canonical failure verdict with score 0 is still returned. -/
theorem analyze_handler_total_and_bounded
    (env : AnalyzeFile.AnalyzeEnv) (event : AnalyzeFile.AnalysisInput)
    (store : AnalyzeFile.S3Store) :
    0 ≤ (AnalyzeFile.handler env event store).1.automation_score ∧
    (AnalyzeFile.handler env event store).1.automation_score ≤ 10 ∧
    (∀ e, env.putResult = some e →
      ∃ m, AnalyzeFile.handler env event store =
        (AnalyzeFile.failedResult event.fileName m, store) ∧
        (AnalyzeFile.failedResult event.fileName m).automation_score = 0) := by
  refine ⟨?_, ?_, ?_⟩
  · rcases analyze_handler_shape env event store with ⟨m, hm⟩ | ⟨raw, res, hv, hr⟩
    · rw [hm]
      norm_num [AnalyzeFile.failedResult]
    · rw [hr]
      exact (validateScore_bounds raw res hv).1
  · rcases analyze_handler_shape env event store with ⟨m, hm⟩ | ⟨raw, res, hv, hr⟩
    · rw [hm]
      norm_num [AnalyzeFile.failedResult]
    · rw [hr]
      exact (validateScore_bounds raw res hv).2
  · intro e he
    obtain ⟨m, hm⟩ := analyze_handler_put_fail env event store e he
    exact ⟨m, hm, rfl⟩

/-- Witness for C10: with every durable write throwing, the handler
still returns the score-zero failure verdict and leaves the store
untouched. -/
theorem analyze_handler_total_and_bounded_witness :
    0 ≤ (AnalyzeFile.handler envPutFail evSample []).1.automation_score ∧
    (AnalyzeFile.handler envPutFail evSample []).1.automation_score ≤ 10 ∧
    (∃ m, AnalyzeFile.handler envPutFail evSample [] =
      (AnalyzeFile.failedResult evSample.fileName m, []) ∧
      (AnalyzeFile.failedResult evSample.fileName m).automation_score = 0) := by
  obtain ⟨h1, h2, h3⟩ := analyze_handler_total_and_bounded envPutFail evSample []
  exact ⟨h1, h2, h3 "disk full" rfl⟩

/-- Counterexample for C6 as stated: on the auto-continue path the empty
surviving path list is not checked; the analysis state machine is
started (the pipeline does not halt before dispatch), the Reducer runs
against zero results, and one failure Aggregate Report row is created
for the job rather than none. -/
theorem empty_job_counterexample :
    Pipeline.startAnalysisAfterExplode emptyExplodeEvent =
      Pipeline.AfterExplodeOutcome.started [] ∧
    Pipeline.runPipelineAfterExplode menvC6 "u" "p" "j" emptyExplodeEvent =
      [AggregateResults.failureReport "p" "No analysis results found to aggregate"] ∧
    (Pipeline.runPipelineAfterExplode menvC6 "u" "p" "j" emptyExplodeEvent).length ≠ 0 := by
  refine ⟨by decide, by decide, by decide⟩

/-- Claim C6 as amended: with zero surviving units, the direct
start-analysis entry point halts before any dispatch with the
distinguishable error, No exploded files found; on the auto-continue
path after explode, the empty list is passed on unchecked, zero per-unit
invocations occur, and the Reducer persists exactly one zero-valued
failure Aggregate Report row for the job instead of none. -/
theorem empty_job_amended
    (objectKeys : List String) (projectId : String)
    (hempty : objectKeys.filter (fun k => !(strEndsWith k "/")) = [])
    (menv : Pipeline.MachineEnv) (userId pid jobId : String)
    (ev : Pipeline.AfterExplodeInput)
    (hpaths : ev.filePaths = [])
    (hauto : ev.autoStartAnalysis = true)
    (harn : ev.analysisStateMachineArn.isSome = true)
    (hfi : menv.failureInsertOk = true) :
    Pipeline.startAnalysis objectKeys projectId =
      Except.error ("No exploded files found for project " ++ projectId ++
        ". Please run clone-repo first.") ∧
    Pipeline.runPipelineAfterExplode menv userId pid jobId ev =
      [AggregateResults.failureReport pid "No analysis results found to aggregate"] := by
  constructor
  · have he : (objectKeys.filter (fun k => !(strEndsWith k "/"))).isEmpty = true := by
      rw [hempty]
      rfl
    simp [Pipeline.startAnalysis, he]
  · have hnone : ev.analysisStateMachineArn.isNone = false := by
      cases ha : ev.analysisStateMachineArn with
      | none => rw [ha] at harn; exact absurd harn (by simp)
      | some a => rfl
    have hstart : Pipeline.startAnalysisAfterExplode ev =
        Pipeline.AfterExplodeOutcome.started [] := by
      rw [← hpaths]
      simp [Pipeline.startAnalysisAfterExplode, hauto, hnone]
    unfold Pipeline.runPipelineAfterExplode
    rw [hstart]
    simp [Pipeline.runAnalysisStateMachine, AggregateResults.handler,
      AggregateResults.catchHandler, hfi]

/-- Witness for the amended C6: a listing containing only a folder
placeholder halts the direct entry point with the distinguishable error,
while the auto-continue path on the empty list yields exactly one
failure report row. -/
theorem empty_job_amended_witness :
    Pipeline.startAnalysis ["dir/"] "p" =
      Except.error ("No exploded files found for project " ++ "p" ++
        ". Please run clone-repo first.") ∧
    Pipeline.runPipelineAfterExplode menvC6 "u" "p" "j" emptyExplodeEvent =
      [AggregateResults.failureReport "p" "No analysis results found to aggregate"] :=
  empty_job_amended ["dir/"] "p" (by decide) menvC6 "u" "p" "j"
    emptyExplodeEvent rfl rfl rfl rfl

/-- Claim C9: every reachable state of the AnalyzeFilesMap execution has
at most maxConcurrency (50) invocations in flight, and the pending,
in-flight and completed paths together stay a permutation of the
surviving unit paths, so exactly one invocation is dispatched per
path. -/
theorem map_state_bounded_concurrency
    (paths : List String) (s : Pipeline.SchedState)
    (h : Pipeline.Reachable paths s) :
    s.inFlight.length ≤ Pipeline.maxConcurrency ∧
      (s.pending ++ s.inFlight ++ s.completed).Perm paths := by
  have h' : Relation.ReflTransGen Pipeline.SchedStep (Pipeline.initState paths) s := h
  clear h
  induction h' with
  | refl =>
    constructor
    · exact Nat.zero_le _
    · simp [Pipeline.initState]
  | tail hsteps step ih =>
    cases step with
    | dispatch p pending inFlight completed hlt =>
      dsimp only at ih ⊢
      constructor
      · exact hlt
      · refine List.Perm.trans ?_ ih.2
        refine List.Perm.append ?_ (List.Perm.refl completed)
        exact List.perm_middle
    | complete p pending inFlight completed hmem =>
      dsimp only at ih ⊢
      have h2 : (p :: inFlight.erase p).Perm inFlight :=
        (List.perm_cons_erase hmem).symm
      constructor
      · exact le_trans (List.erase_sublist p inFlight).length_le ih.1
      · refine List.Perm.trans ?_ ih.2
        rw [List.append_assoc, List.append_assoc]
        refine List.Perm.append_left pending ?_
        exact List.Perm.trans List.perm_middle
          (h2.append (List.Perm.refl completed))

/-- Witness for C9: the initial state of a one-path execution satisfies
the concurrency bound and the accounting invariant. -/
theorem map_state_bounded_concurrency_witness :
    (Pipeline.initState ["index.ts"]).inFlight.length ≤ Pipeline.maxConcurrency ∧
      ((Pipeline.initState ["index.ts"]).pending ++
        (Pipeline.initState ["index.ts"]).inFlight ++
        (Pipeline.initState ["index.ts"]).completed).Perm ["index.ts"] :=
  map_state_bounded_concurrency ["index.ts"] (Pipeline.initState ["index.ts"])
    Relation.ReflTransGen.refl

end Flawlesst
